import Mathlib

/-!
Verification development for the governed retrieval gateway.

The definitions below are shallow embeddings of the TypeScript sources:
* `demo/services/gateway-api/src/retriever.ts` (GovernedRetriever),
* `demo/services/gateway-api/src/index.ts` (the /search, /auth/step-up routes),
* the PDP wrapper service (POST /authorize) and the OPA `access` policy,
* the gateway redaction library (RedactionService.maskPII),
* the lineage/federation service (hash-chained audit ledger).

JavaScript strings are modelled as Lean `String`, JS numbers used as
counters/limits as `Nat`, nullable fields as `Option`, and external calls
that can fail (axios to the PDP) as an oracle returning `Option`.
-/

namespace GovRag

/-- A document row (`documents` table): only the columns used by the
retriever's join are modelled. -/
structure Document where
  doc_id : String
  source : String
  owner_user_id : String
  tenant : String
  deriving DecidableEq

/-- A chunk row (`chunks` table).  `created_at` is the insertion timestamp
used by the gateway retriever's `ORDER BY c.created_at DESC`. -/
structure ChunkRow where
  chunk_id : String
  doc_id : String
  text : String
  label : String
  created_at : Nat
  deriving DecidableEq

/-- The persistent store seen by one request.  `chunks` is kept in
`created_at` descending order, the order in which the gateway retriever's
SQL returns rows. -/
structure Store where
  documents : List Document
  chunks : List ChunkRow
  deriving DecidableEq

/-- The `attrs` bag of a user.  The source keeps `Record<string, any>`; the
fields the core reads are `clearance` (a string, possibly absent) and
`mfa_satisfied` (a boolean composed in by the gateway), plus `allow_export`
for the export route. -/
structure Attrs where
  clearance : Option String
  mfa_satisfied : Bool
  allow_export : Bool
  deriving DecidableEq

/-- `User` from retriever.ts. -/
structure User where
  user_id : String
  groups : List String
  attrs : Attrs
  tenant : String
  deriving DecidableEq

/-- `Chunk` from retriever.ts: a pre-filter candidate.  The gateway
retriever's SQL selects the literal `0.8 as similarity`, so the similarity
column is rational. -/
structure Chunk where
  chunk_id : String
  doc_id : String
  text : String
  label : String
  similarity : ℚ
  source : String
  owner_user_id : String
  deriving DecidableEq

/-- `PolicyDecision.decision` values. -/
inductive DecisionKind where
  | ALLOW
  | DENY
  | STEP_UP_REQUIRED
  deriving DecidableEq

/-- `PolicyDecision` from retriever.ts. -/
structure PolicyDecision where
  chunk_id : String
  decision : DecisionKind
  reason : String
  policy_id : Option String
  deriving DecidableEq

/-- `RetrievalRequest` from retriever.ts. -/
structure RetrievalRequest where
  user : User
  query : String
  top_k : Nat
  min_evidence_threshold : Nat
  deriving DecidableEq

/-- `RetrievalResponse` from retriever.ts. -/
structure RetrievalResponse where
  chunks : List Chunk
  evidence_count : Nat
  policy_decisions : List PolicyDecision
  redaction_applied : Bool
  insufficient_evidence : Bool
  deriving DecidableEq

/-- The wire response of the PDP service's POST /authorize. -/
structure PdpResponse where
  allow : Bool
  step_up_required : Bool
  reason : Option String
  policy_id : Option String
  deriving DecidableEq

/-- The PDP as seen through axios: `none` models any transport, timeout,
schema or parse failure (the `catch` path of `evaluatePolicy`). -/
def Pdp : Type := User → Chunk → Option PdpResponse

/-- `getAllowedLabels` from retriever.ts: the clearance-to-label-prefix
table, with the `|| ['Public']` fallback for unknown clearance strings. -/
def getAllowedLabels (clearanceLevel : String) : List String :=
  if clearanceLevel = "public" then ["Public"]
  else if clearanceLevel = "internal" then ["Public", "Internal"]
  else if clearanceLevel = "confidential" then ["Public", "Internal", "Confidential"]
  else if clearanceLevel = "regulated" then ["Public", "Internal", "Confidential", "Regulated"]
  else ["Public"]

/-- `user.attrs.clearance || 'public'` from `preFilterChunks`.  (For the
empty string JS `||` also falls back to `'public'`; both readings send the
lookup to the `['Public']` result, so modelling only absence is faithful.) -/
def clearanceLevelOf (a : Attrs) : String :=
  a.clearance.getD "public"

/-- The SQL join `chunks c JOIN documents d ON c.doc_id = d.doc_id`
(doc_id is the documents primary key, so at most one row matches). -/
def joinRow (documents : List Document) (c : ChunkRow) : Option (ChunkRow × Document) :=
  (documents.find? (fun d => d.doc_id = c.doc_id)).map (fun d => (c, d))

/-- Shape a joined row into the `Chunk` record returned by
`preFilterChunks` (similarity is the literal `0.8` of the SQL). -/
def mkChunk (cd : ChunkRow × Document) : Chunk :=
  { chunk_id := cd.1.chunk_id
    doc_id := cd.1.doc_id
    text := cd.1.text
    label := cd.1.label
    similarity := mkRat 8 10
    source := cd.2.source
    owner_user_id := cd.2.owner_user_id }

/-- The WHERE clause of `preFilterChunks`: joined rows whose chunk label
is in the allowed labels and whose document tenant is the user's tenant,
in `created_at DESC` order. -/
def eligibleRows (db : Store) (user : User) : List (ChunkRow × Document) :=
  (db.chunks.filterMap (joinRow db.documents)).filter
    (fun cd => decide (cd.1.label ∈ getAllowedLabels (clearanceLevelOf user.attrs))
      && decide (cd.2.tenant = user.tenant))

/-- `preFilterChunks` from retriever.ts: label ∈ allowed labels, document
tenant = requesting user's tenant, ordered by `created_at DESC` (the order
of `Store.chunks`), limited. -/
def preFilterChunks (db : Store) (user : User) (limit : Nat) : List Chunk :=
  ((eligibleRows db user).take limit).map mkChunk

/-- The decision mapping inside `evaluatePolicy`:
`step_up_required` wins, then `allow`, else deny. -/
def mapDecision (r : PdpResponse) : DecisionKind :=
  if r.step_up_required then .STEP_UP_REQUIRED
  else if r.allow then .ALLOW
  else .DENY

/-- The `resource` object of the pdpRequest built by `evaluatePolicy`.
Note that its tenant field is `user.tenant`, not a document tenant. -/
structure Resource where
  label : String
  source : String
  owner : String
  tenant : String
  deriving DecidableEq

/-- Resource construction in `evaluatePolicy`. -/
def pdpResource (user : User) (chunk : Chunk) : Resource :=
  { label := chunk.label
    source := chunk.source
    owner := chunk.owner_user_id
    tenant := user.tenant }

/-- `evaluatePolicy` from retriever.ts.  A successful PDP response is
mapped through `mapDecision` (reason defaulted to `'Policy evaluation'`);
any axios failure takes the `catch` branch: DENY with reason
`'Policy evaluation failed'`. -/
def evaluatePolicy (pdp : Pdp) (user : User) (chunk : Chunk) : PolicyDecision :=
  match pdp user chunk with
  | some r =>
      { chunk_id := chunk.chunk_id
        decision := mapDecision r
        reason := r.reason.getD "Policy evaluation"
        policy_id := r.policy_id }
  | none =>
      { chunk_id := chunk.chunk_id
        decision := .DENY
        reason := "Policy evaluation failed"
        policy_id := none }

/-- The per-candidate loop of `retrieve` (step 2): collect a decision for
every candidate and keep, in order, the chunks whose decision is ALLOW. -/
def postFilter (pdp : Pdp) (user : User) :
    List Chunk → List PolicyDecision × List Chunk
  | [] => ([], [])
  | c :: rest =>
      let d := evaluatePolicy pdp user c
      let (ds, as) := postFilter pdp user rest
      (d :: ds, if d.decision = .ALLOW then c :: as else as)

/-- `retrieve` from retriever.ts: pre-filter with `limit = top_k * 2`,
per-candidate PDP evaluation, evidence threshold, `slice(0, top_k)`. -/
def retrieve (pdp : Pdp) (db : Store) (req : RetrievalRequest) : RetrievalResponse :=
  let preFiltered := preFilterChunks db req.user (req.top_k * 2)
  let (policyDecisions, allowedChunks) := postFilter pdp req.user preFiltered
  { chunks := allowedChunks.take req.top_k
    evidence_count := allowedChunks.length
    policy_decisions := policyDecisions
    redaction_applied := false
    insufficient_evidence := decide (allowedChunks.length < req.min_evidence_threshold) }

/-! ### The OPA `access` policy and the PDP wrapper -/

/-- The `allow` rules of the OPA `access` policy (tech/policies/opa):
Public readable by everyone; Internal readable by the `eng` group;
Confidential and Regulated readable when the subject's `clearance`
attribute equals exactly `confidential` resp. `regulated`. -/
def opaAllow (groups : List String) (clearance : Option String)
    (res : Resource) (action : String) : Bool :=
  (action = "read" && res.label = "Public")
  || (action = "read" && res.label = "Internal" && groups.contains "eng")
  || (action = "read" && res.label = "Confidential" && clearance = some "confidential")
  || (action = "read" && res.label = "Regulated" && clearance = some "regulated")

/-- The `step_up_required` rule of the OPA policy: Confidential or
Regulated resource and `mfa_satisfied` not truthy. -/
def opaStepUp (mfa_satisfied : Bool) (res : Resource) : Bool :=
  (res.label = "Confidential" || res.label = "Regulated") && !mfa_satisfied

/-- POST /authorize of the PDP wrapper service: queries OPA (with `||
false` defaults) and attaches a fixed reason string. -/
def pdpAuthorize (user : User) (res : Resource) (action : String) : PdpResponse :=
  let allow := opaAllow user.groups user.attrs.clearance res action
  { allow := allow
    step_up_required := opaStepUp user.attrs.mfa_satisfied res
    reason := some (if allow then "Access granted" else "Access denied by policy")
    policy_id := none }

/-- The PDP oracle given by the bundled policy engine answering every
`read` evaluation the retriever issues. -/
def pdpOracle : Pdp :=
  fun user chunk => some (pdpAuthorize user (pdpResource user chunk) "read")

/-- A PDP that is unreachable: every axios call fails. -/
def pdpDown : Pdp := fun _ _ => none

/-! ### Gateway /search response shaping (insufficient-evidence branch) -/

/-- The watermarked JSON the gateway sends when
`retrievalResult.insufficient_evidence` is set (index.ts).  `sources` is
the literal empty array of that branch; no fragment list is included. -/
structure WatermarkedResponse where
  response : String
  sources : List String
  policy_decisions : List PolicyDecision
  redaction_applied : Bool
  insufficient_evidence : Bool
  deriving DecidableEq

/-- The insufficient-evidence early return of POST /search: `some`
watermarked body when the flag is set, `none` when the request continues
to redaction and synthesis. -/
def searchInsufficientBranch (rr : RetrievalResponse) : Option WatermarkedResponse :=
  if rr.insufficient_evidence then
    some { response := "Insufficient governed evidence to provide a reliable answer."
           sources := []
           policy_decisions := rr.policy_decisions
           redaction_applied := false
           insufficient_evidence := true }
  else none

/-! ### Basic lemmas about the retriever -/

theorem postFilter_eq (pdp : Pdp) (u : User) (l : List Chunk) :
    postFilter pdp u l =
      (l.map (evaluatePolicy pdp u),
       l.filter (fun c => decide ((evaluatePolicy pdp u c).decision = .ALLOW))) := by
  induction l with
  | nil => rfl
  | cons c rest ih =>
      unfold postFilter
      rw [ih]
      by_cases h : (evaluatePolicy pdp u c).decision = .ALLOW
      · simp [List.filter_cons, h]
      · simp [List.filter_cons, h]

theorem retrieve_chunks_eq (pdp : Pdp) (db : Store) (req : RetrievalRequest) :
    (retrieve pdp db req).chunks =
      ((preFilterChunks db req.user (req.top_k * 2)).filter
        (fun c => decide ((evaluatePolicy pdp req.user c).decision = .ALLOW))).take req.top_k := by
  simp [retrieve, postFilter_eq]

theorem retrieve_decisions_eq (pdp : Pdp) (db : Store) (req : RetrievalRequest) :
    (retrieve pdp db req).policy_decisions =
      (preFilterChunks db req.user (req.top_k * 2)).map (evaluatePolicy pdp req.user) := by
  simp [retrieve, postFilter_eq]

theorem joinRow_eq_some {docs : List Document} {row : ChunkRow}
    {cd : ChunkRow × Document} (h : joinRow docs row = some cd) :
    cd.1 = row ∧ cd.2 ∈ docs ∧ cd.2.doc_id = row.doc_id := by
  unfold joinRow at h
  cases hf : docs.find? (fun d => d.doc_id = row.doc_id) with
  | none => rw [hf] at h; simp at h
  | some d =>
      rw [hf] at h
      have h : (row, d) = cd := Option.some.inj h
      have hd : d ∈ docs := List.mem_of_find?_eq_some hf
      have hid := List.find?_some hf
      simp only [decide_eq_true_eq] at hid
      exact h ▸ ⟨rfl, hd, hid⟩

theorem mem_eligibleRows {db : Store} {u : User} {cd : ChunkRow × Document}
    (h : cd ∈ eligibleRows db u) :
    cd.1 ∈ db.chunks ∧ cd.2 ∈ db.documents ∧ cd.2.doc_id = cd.1.doc_id ∧
      cd.1.label ∈ getAllowedLabels (clearanceLevelOf u.attrs) ∧ cd.2.tenant = u.tenant := by
  unfold eligibleRows at h
  have h' := List.mem_filter.mp h
  obtain ⟨hmem, hcond⟩ := h'
  simp only [Bool.and_eq_true, decide_eq_true_eq] at hcond
  obtain ⟨row, hrow, hjoin⟩ := List.mem_filterMap.mp hmem
  obtain ⟨h1, h2, h3⟩ := joinRow_eq_some hjoin
  exact ⟨h1 ▸ hrow, h2, h1 ▸ h3, hcond.1, hcond.2⟩

theorem mem_preFilterChunks {db : Store} {u : User} {lim : Nat} {c : Chunk}
    (h : c ∈ preFilterChunks db u lim) :
    ∃ cd ∈ eligibleRows db u, c = mkChunk cd := by
  unfold preFilterChunks at h
  obtain ⟨cd, hcd, hc⟩ := List.mem_map.mp h
  exact ⟨cd, List.mem_of_mem_take hcd, hc.symm⟩

/-- The sample document of tenant `dash`. -/
def exDoc : Document :=
  { doc_id := "d1", source := "dropbox", owner_user_id := "alice@dash", tenant := "dash" }

/-- A Public chunk row. -/
def exRowPub : ChunkRow :=
  { chunk_id := "c-pub", doc_id := "d1", text := "public text", label := "Public", created_at := 1 }

/-- Internal chunk rows, newer than the Public one. -/
def exRowInt1 : ChunkRow :=
  { chunk_id := "c-int1", doc_id := "d1", text := "internal one", label := "Internal", created_at := 3 }

/-- Second internal chunk row. -/
def exRowInt2 : ChunkRow :=
  { chunk_id := "c-int2", doc_id := "d1", text := "internal two", label := "Internal", created_at := 2 }

/-- A Confidential chunk row. -/
def exRowConf : ChunkRow :=
  { chunk_id := "c-conf", doc_id := "d1", text := "confidential text", label := "Confidential", created_at := 4 }

/-- Store with just the Public chunk. -/
def exStorePub : Store := { documents := [exDoc], chunks := [exRowPub] }

/-- Store with two Internal chunks (newest first) and the Public chunk. -/
def exStoreMixed : Store := { documents := [exDoc], chunks := [exRowInt1, exRowInt2, exRowPub] }

/-- Store with just the Confidential chunk. -/
def exStoreConf : Store := { documents := [exDoc], chunks := [exRowConf] }

/-- A subject in tenant `dash`, `eng` group, mfa satisfied, with the given
clearance attribute. -/
def exUser (clearance : Option String) : User :=
  { user_id := "alice@dash"
    groups := ["eng"]
    attrs := { clearance := clearance, mfa_satisfied := true, allow_export := true }
    tenant := "dash" }

/-- A retrieval request for `exUser clearance`. -/
def exReq (clearance : Option String) (top_k min_evidence : Nat) : RetrievalRequest :=
  { user := exUser clearance
    query := "policy"
    top_k := top_k
    min_evidence_threshold := min_evidence }

/-- The Public chunk as shaped by the pre-filter. -/
def exPubChunk : Chunk := mkChunk (exRowPub, exDoc)

/-- The Confidential chunk as shaped by the pre-filter. -/
def exConfChunk : Chunk := mkChunk (exRowConf, exDoc)

/-! ### C1: tenant isolation -/

/-- C1.  Tenant isolation: every fragment returned by `retrieve` (and
already every pre-filter candidate) joins to a document whose tenant is
the requesting subject's tenant, and the resource object sent to the
policy engine carries the subject's tenant by construction, so the policy
evaluation re-states the same tenant constraint. -/
theorem tenant_isolation (pdp : Pdp) (db : Store) (req : RetrievalRequest) :
    (∀ c ∈ (retrieve pdp db req).chunks,
       ∃ d ∈ db.documents, d.doc_id = c.doc_id ∧ d.tenant = req.user.tenant) ∧
    (∀ c ∈ preFilterChunks db req.user (req.top_k * 2),
       ∃ d ∈ db.documents, d.doc_id = c.doc_id ∧ d.tenant = req.user.tenant) ∧
    (∀ (u : User) (ch : Chunk), (pdpResource u ch).tenant = u.tenant) := by
  have hpre : ∀ c ∈ preFilterChunks db req.user (req.top_k * 2),
      ∃ d ∈ db.documents, d.doc_id = c.doc_id ∧ d.tenant = req.user.tenant := by
    intro c hc
    obtain ⟨cd, hcd, hmk⟩ := mem_preFilterChunks hc
    obtain ⟨-, hdoc, hid, -, hten⟩ := mem_eligibleRows hcd
    refine ⟨cd.2, hdoc, ?_, hten⟩
    rw [hmk]
    exact hid
  refine ⟨?_, hpre, fun _ _ => rfl⟩
  intro c hc
  rw [retrieve_chunks_eq] at hc
  exact hpre c (List.mem_filter.mp (List.mem_of_mem_take hc)).1

/-- Witness for C1 at the demo store: the Public chunk returned for the
public-clearance subject joins to a `dash`-tenant document. -/
theorem tenant_isolation_witness :
    ∃ d ∈ exStorePub.documents,
      d.doc_id = exPubChunk.doc_id ∧
      d.tenant = (exReq (some "public") 10 1).user.tenant :=
  (tenant_isolation pdpOracle exStorePub (exReq (some "public") 10 1)).1
    exPubChunk (by decide)

/-! ### C2: deny-by-default on policy failure -/

/-- C2 counterexample.  The `catch` branch of `evaluatePolicy` records the
reason string `'Policy evaluation failed'`, not `"policy-unavailable"` as
the claim states. -/
theorem policy_unavailable_reason_counterexample :
    (evaluatePolicy pdpDown (exUser (some "internal")) exPubChunk).decision = .DENY ∧
    (evaluatePolicy pdpDown (exUser (some "internal")) exPubChunk).reason ≠ "policy-unavailable" ∧
    (evaluatePolicy pdpDown (exUser (some "internal")) exPubChunk).reason = "Policy evaluation failed" := by
  refine ⟨rfl, ?_, rfl⟩
  decide

/-- C2 amended.  Any failed policy evaluation yields a DENY decision with
reason `'Policy evaluation failed'`; with the policy engine unreachable,
zero fragments are returned and every candidate's decision is that DENY. -/
theorem deny_by_default :
    (∀ (pdp : Pdp) (u : User) (c : Chunk), pdp u c = none →
       evaluatePolicy pdp u c =
         { chunk_id := c.chunk_id, decision := .DENY,
           reason := "Policy evaluation failed", policy_id := none }) ∧
    (∀ (db : Store) (req : RetrievalRequest),
       (retrieve pdpDown db req).chunks = [] ∧
       ∀ d ∈ (retrieve pdpDown db req).policy_decisions,
         d.decision = .DENY ∧ d.reason = "Policy evaluation failed") := by
  have heval : ∀ (u : User) (c : Chunk),
      evaluatePolicy pdpDown u c =
        { chunk_id := c.chunk_id, decision := .DENY,
          reason := "Policy evaluation failed", policy_id := none } := by
    intro u c
    rfl
  refine ⟨?_, ?_⟩
  · intro pdp u c h
    simp [evaluatePolicy, h]
  · intro db req
    constructor
    · rw [retrieve_chunks_eq]
      have hnil : (preFilterChunks db req.user (req.top_k * 2)).filter
          (fun c => decide ((evaluatePolicy pdpDown req.user c).decision = .ALLOW)) = [] := by
        apply List.filter_eq_nil_iff.mpr
        intro c _
        rw [heval]
        simp
      rw [hnil, List.take_nil]
    · intro d hd
      rw [retrieve_decisions_eq] at hd
      obtain ⟨c, -, hc⟩ := List.mem_map.mp hd
      rw [← hc, heval]
      exact ⟨rfl, rfl⟩

/-- Witness for C2 at concrete inputs: the unreachable-PDP retrieval over
the demo store returns no fragments, and the single candidate's decision
is the fixed DENY. -/
theorem deny_by_default_witness :
    evaluatePolicy pdpDown (exUser (some "public")) exPubChunk =
      { chunk_id := exPubChunk.chunk_id, decision := .DENY,
        reason := "Policy evaluation failed", policy_id := none } ∧
    (retrieve pdpDown exStorePub (exReq (some "public") 10 1)).chunks = [] :=
  ⟨deny_by_default.1 pdpDown (exUser (some "public")) exPubChunk rfl,
   (deny_by_default.2 exStorePub (exReq (some "public") 10 1)).1⟩

/-! ### C6: insufficient-evidence responses -/

/-- C6 counterexample.  With one allowed fragment and
`min_evidence_threshold = 3`, the retrieval result does carry the single
allowed fragment, but the gateway's watermarked response has an empty
`sources` array: it does not contain that fragment. -/
theorem insufficient_evidence_response_counterexample :
    (retrieve pdpOracle exStorePub (exReq (some "public") 10 3)).insufficient_evidence = true ∧
    (retrieve pdpOracle exStorePub (exReq (some "public") 10 3)).chunks = [exPubChunk] ∧
    (searchInsufficientBranch
        (retrieve pdpOracle exStorePub (exReq (some "public") 10 3))).map
      WatermarkedResponse.sources = some [] ∧
    ([] : List String) ≠ [exPubChunk.chunk_id] := by
  refine ⟨by decide, by decide, by decide, by decide⟩

/-- C6 amended.  Below the evidence threshold the retrieval result is
flagged and still carries the allowed fragments truncated to `top_k`, but
the gateway's watermarked `/search` response carries the decisions and the
flag with an empty `sources` list and no fragment texts. -/
theorem insufficient_evidence_branch (pdp : Pdp) (db : Store) (req : RetrievalRequest)
    (h : (retrieve pdp db req).insufficient_evidence = true) :
    (retrieve pdp db req).chunks =
      ((postFilter pdp req.user (preFilterChunks db req.user (req.top_k * 2))).2).take req.top_k ∧
    searchInsufficientBranch (retrieve pdp db req) =
      some { response := "Insufficient governed evidence to provide a reliable answer."
             sources := []
             policy_decisions := (retrieve pdp db req).policy_decisions
             redaction_applied := false
             insufficient_evidence := true } := by
  constructor
  · rfl
  · simp [searchInsufficientBranch, h]

/-- Witness for C6 at the one-allowed-fragment store with threshold 3. -/
theorem insufficient_evidence_branch_witness :
    (retrieve pdpOracle exStorePub (exReq (some "public") 10 3)).chunks =
      ((postFilter pdpOracle (exReq (some "public") 10 3).user
        (preFilterChunks exStorePub (exReq (some "public") 10 3).user
          ((exReq (some "public") 10 3).top_k * 2))).2).take
        (exReq (some "public") 10 3).top_k ∧
    searchInsufficientBranch (retrieve pdpOracle exStorePub (exReq (some "public") 10 3)) =
      some { response := "Insufficient governed evidence to provide a reliable answer."
             sources := []
             policy_decisions :=
               (retrieve pdpOracle exStorePub (exReq (some "public") 10 3)).policy_decisions
             redaction_applied := false
             insufficient_evidence := true } :=
  insufficient_evidence_branch pdpOracle exStorePub (exReq (some "public") 10 3) (by decide)

/-! ### C7: decision mapping of the policy adapter -/

/-- An engine that answers allow = true together with step_up_required =
true. -/
def pdpStepUpAllow : Pdp :=
  fun _ _ => some { allow := true, step_up_required := true, reason := some "engine", policy_id := none }

/-- C7 counterexample.  For an engine response with `allow = true` and
`step_up_required = true` evaluated for a subject whose `mfa_satisfied` is
true, the adapter returns STEP_UP_REQUIRED, not ALLOW: the adapter never
consults `mfa_satisfied`. -/
theorem step_up_mapping_counterexample :
    (exUser (some "confidential")).attrs.mfa_satisfied = true ∧
    (evaluatePolicy pdpStepUpAllow (exUser (some "confidential")) exConfChunk).decision =
      .STEP_UP_REQUIRED ∧
    (evaluatePolicy pdpStepUpAllow (exUser (some "confidential")) exConfChunk).decision ≠
      .ALLOW := by
  refine ⟨rfl, rfl, by decide⟩

/-- C7 amended.  The adapter maps `step_up_required` to STEP_UP_REQUIRED
unconditionally, then `allow` to ALLOW, else DENY; the `mfa_satisfied`
condition lives in the OPA policy instead, which never signals step-up for
an mfa-satisfied subject, so under the bundled engine an mfa-satisfied
subject's decision is ALLOW exactly when the policy allows. -/
theorem step_up_mapping :
    (∀ r : PdpResponse, mapDecision r = .STEP_UP_REQUIRED ↔ r.step_up_required = true) ∧
    (∀ r : PdpResponse, r.step_up_required = false →
       (mapDecision r = .ALLOW ↔ r.allow = true)) ∧
    (∀ (u : User) (res : Resource) (a : String), u.attrs.mfa_satisfied = true →
       (pdpAuthorize u res a).step_up_required = false) ∧
    (∀ (u : User) (c : Chunk), u.attrs.mfa_satisfied = true →
       ((evaluatePolicy pdpOracle u c).decision = .ALLOW ↔
         opaAllow u.groups u.attrs.clearance (pdpResource u c) "read" = true)) := by
  have hmap : ∀ r : PdpResponse, mapDecision r = .STEP_UP_REQUIRED ↔ r.step_up_required = true := by
    intro r
    unfold mapDecision
    rcases r with ⟨allow, su, -, -⟩
    cases su <;> cases allow <;> simp
  have hallow : ∀ r : PdpResponse, r.step_up_required = false →
      (mapDecision r = .ALLOW ↔ r.allow = true) := by
    intro r h
    unfold mapDecision
    rw [h]
    rcases r with ⟨allow, -, -, -⟩
    cases allow <;> simp
  have hstep : ∀ (u : User) (res : Resource) (a : String), u.attrs.mfa_satisfied = true →
      (pdpAuthorize u res a).step_up_required = false := by
    intro u res a h
    simp [pdpAuthorize, opaStepUp, h]
  refine ⟨hmap, hallow, hstep, ?_⟩
  intro u c h
  have hsu := hstep u (pdpResource u c) "read" h
  have : (evaluatePolicy pdpOracle u c).decision =
      mapDecision (pdpAuthorize u (pdpResource u c) "read") := rfl
  rw [this, hallow _ hsu]
  simp [pdpAuthorize]

/-- Witness for C7's amended statement at an mfa-satisfied subject. -/
theorem step_up_mapping_witness :
    (pdpAuthorize (exUser (some "confidential"))
      (pdpResource (exUser (some "confidential")) exConfChunk) "read").step_up_required = false ∧
    ((evaluatePolicy pdpOracle (exUser (some "confidential")) exConfChunk).decision = .ALLOW ↔
      opaAllow (exUser (some "confidential")).groups (exUser (some "confidential")).attrs.clearance
        (pdpResource (exUser (some "confidential")) exConfChunk) "read" = true) :=
  ⟨step_up_mapping.2.2.1 (exUser (some "confidential")) _ "read" rfl,
   step_up_mapping.2.2.2 (exUser (some "confidential")) exConfChunk rfl⟩

/-! ### C10: unknown clearance fails closed -/

/-- The full label hierarchy, lowest first. -/
def labelHierarchyAll : List String := ["Public", "Internal", "Confidential", "Regulated"]

/-- Position of a clearance string in the order
public < internal < confidential < regulated (unknown strings collapse to
the public rank, matching the `['Public']` fallback). -/
def clearanceRank (c : String) : Nat :=
  if c = "internal" then 1
  else if c = "confidential" then 2
  else if c = "regulated" then 3
  else 0

/-- `u` with only the clearance attribute replaced: the "all other
attributes equal" relation of the monotonicity claim. -/
def setClearance (u : User) (c : Option String) : User :=
  { u with attrs := { u.attrs with clearance := c } }

theorem getAllowedLabels_eq_take (c : String) :
    getAllowedLabels c = labelHierarchyAll.take (clearanceRank c + 1) := by
  unfold getAllowedLabels clearanceRank labelHierarchyAll
  by_cases h1 : c = "public"
  · simp [h1]
  · by_cases h2 : c = "internal"
    · simp [h1, h2]
    · by_cases h3 : c = "confidential"
      · simp [h1, h2, h3]
      · by_cases h4 : c = "regulated"
        · simp [h1, h2, h3, h4]
        · simp [h1, h2, h3, h4]

theorem take_sublist_take {α : Type} (l : List α) {m n : Nat} (h : m ≤ n) :
    List.Sublist (l.take m) (l.take n) := by
  induction l generalizing m n with
  | nil => simp
  | cons a t ih =>
      cases m with
      | zero => simp
      | succ m' =>
          cases n with
          | zero => omega
          | succ n' =>
              simp only [List.take_succ_cons]
              exact List.Sublist.cons₂ a (ih (Nat.le_of_succ_le_succ h))

/-- For Public or Internal resources none of the OPA rules reads the
clearance attribute, so the adapter's decision is independent of it. -/
theorem evaluatePolicy_clearance_independent (u : User) (c1 c2 : Option String) (ch : Chunk)
    (hlab : ch.label = "Public" ∨ ch.label = "Internal") :
    evaluatePolicy pdpOracle (setClearance u c1) ch =
      evaluatePolicy pdpOracle (setClearance u c2) ch := by
  rcases hlab with h | h <;>
    cases hg : u.groups.contains "eng" <;>
      simp [evaluatePolicy, pdpOracle, pdpAuthorize, pdpResource, opaAllow, opaStepUp,
        mapDecision, setClearance, h, hg]

/-- C5 counterexample.  The OPA Confidential rule requires clearance to
equal exactly `confidential`, so raising the clearance from confidential
to regulated (all other attributes equal, same store and query) loses the
Confidential fragment: results are not monotone in clearance. -/
theorem clearance_monotone_counterexample :
    clearanceRank (clearanceLevelOf (exUser (some "confidential")).attrs) ≤
      clearanceRank (clearanceLevelOf (exUser (some "regulated")).attrs) ∧
    exUser (some "regulated") = setClearance (exUser (some "confidential")) (some "regulated") ∧
    exConfChunk ∈ (retrieve pdpOracle exStoreConf (exReq (some "confidential") 10 1)).chunks ∧
    exConfChunk ∉ (retrieve pdpOracle exStoreConf (exReq (some "regulated") 10 1)).chunks := by
  refine ⟨by decide, rfl, by decide, by decide⟩

/-- C5 amended.  Monotonicity holds for the clearance-independent part of
the policy: when every stored chunk is labeled Public or Internal, the
higher subject's eligible rows fit in the pre-filter limit, and its
allowed chunks fit in `top_k`, every fragment returned for the lower
clearance is returned for the higher one. -/
theorem clearance_monotone (db : Store) (u : User) (c1 c2 : Option String)
    (q : String) (k t1 t2 : Nat)
    (hrank : clearanceRank (clearanceLevelOf (setClearance u c1).attrs) ≤
      clearanceRank (clearanceLevelOf (setClearance u c2).attrs))
    (hlabels : ∀ r ∈ db.chunks, r.label = "Public" ∨ r.label = "Internal")
    (hfit : (eligibleRows db (setClearance u c2)).length ≤ k * 2)
    (hallow : ((preFilterChunks db (setClearance u c2) (k * 2)).filter
        (fun c => decide ((evaluatePolicy pdpOracle (setClearance u c2) c).decision = .ALLOW))).length ≤ k) :
    ∀ ch ∈ (retrieve pdpOracle db
        { user := setClearance u c1, query := q, top_k := k, min_evidence_threshold := t1 }).chunks,
      ch ∈ (retrieve pdpOracle db
        { user := setClearance u c2, query := q, top_k := k, min_evidence_threshold := t2 }).chunks := by
  intro ch hch
  rw [retrieve_chunks_eq] at hch ⊢
  have hch' := List.mem_filter.mp (List.mem_of_mem_take hch)
  obtain ⟨hmem1, hP1⟩ := hch'
  -- provenance of ch through the lower-clearance pre-filter
  obtain ⟨cd, hcd1, hmk⟩ := mem_preFilterChunks hmem1
  have helig : List.Sublist (eligibleRows db (setClearance u c1))
      (eligibleRows db (setClearance u c2)) := by
    unfold eligibleRows
    apply List.monotone_filter_right
    intro cd' hcd'
    simp only [Bool.and_eq_true, decide_eq_true_eq] at hcd' ⊢
    refine ⟨?_, hcd'.2⟩
    have h1 := hcd'.1
    rw [getAllowedLabels_eq_take] at h1 ⊢
    exact (take_sublist_take labelHierarchyAll (Nat.add_le_add_right hrank 1)).mem h1
  have hcd2 : cd ∈ eligibleRows db (setClearance u c2) := helig.mem hcd1
  -- ch's label is Public or Internal
  have hlabch : ch.label = "Public" ∨ ch.label = "Internal" := by
    obtain ⟨hrow, -, -, -, -⟩ := mem_eligibleRows hcd1
    have := hlabels cd.1 hrow
    rw [hmk]
    exact this
  -- ch is among the higher-clearance candidates
  have hmem2 : ch ∈ preFilterChunks db (setClearance u c2) (k * 2) := by
    unfold preFilterChunks
    apply List.mem_map.mpr
    refine ⟨cd, ?_, hmk.symm⟩
    rw [List.take_of_length_le hfit]
    exact hcd2
  -- the decision transfers
  have hP2 : decide ((evaluatePolicy pdpOracle (setClearance u c2) ch).decision = .ALLOW) = true := by
    rw [← evaluatePolicy_clearance_independent u c1 c2 ch hlabch]
    exact hP1
  have hmemf : ch ∈ (preFilterChunks db (setClearance u c2) (k * 2)).filter
      (fun c => decide ((evaluatePolicy pdpOracle (setClearance u c2) c).decision = .ALLOW)) :=
    List.mem_filter.mpr ⟨hmem2, hP2⟩
  rw [List.take_of_length_le hallow]
  exact hmemf

/-- Witness for C5's amended statement: with a Public and Internal-only
store, the public-clearance result is contained in the internal-clearance
result. -/
theorem clearance_monotone_witness :
    exPubChunk ∈ (retrieve pdpOracle exStoreMixed
      { user := setClearance (exUser (some "public")) (some "internal"), query := "policy",
        top_k := 10, min_evidence_threshold := 1 }).chunks :=
  clearance_monotone exStoreMixed (exUser (some "public")) (some "public") (some "internal")
    "policy" 10 1 1 (by decide) (by decide) (by decide) (by decide)
    exPubChunk (by decide)

/-! ### SHA-256

An executable embedding of the SHA-256 used by the lineage service via
node's `createHash('sha256')`, over byte lists (`Nat` values < 256,
32-bit words as `Nat` mod 2^32). -/

/-- Truncate to a 32-bit word. -/
def w32 (n : Nat) : Nat := n % 4294967296

/-- 32-bit rotate right. -/
def rotr (n x : Nat) : Nat := w32 ((x >>> n) ||| (x <<< (32 - n)))

/-- SHA-256 Σ0. -/
def bigSigma0 (x : Nat) : Nat := (rotr 2 x) ^^^ (rotr 13 x) ^^^ (rotr 22 x)

/-- SHA-256 Σ1. -/
def bigSigma1 (x : Nat) : Nat := (rotr 6 x) ^^^ (rotr 11 x) ^^^ (rotr 25 x)

/-- SHA-256 σ0. -/
def smallSigma0 (x : Nat) : Nat := (rotr 7 x) ^^^ (rotr 18 x) ^^^ (x >>> 3)

/-- SHA-256 σ1. -/
def smallSigma1 (x : Nat) : Nat := (rotr 17 x) ^^^ (rotr 19 x) ^^^ (x >>> 10)

/-- SHA-256 choose. -/
def chFn (x y z : Nat) : Nat := (x &&& y) ^^^ ((x ^^^ 4294967295) &&& z)

/-- SHA-256 majority. -/
def majFn (x y z : Nat) : Nat := (x &&& y) ^^^ (x &&& z) ^^^ (y &&& z)

/-- The 64 SHA-256 round constants (FIPS 180-4, in decimal). -/
def shaK : List Nat :=
  [1116352408, 1899447441, 3049323471, 3921009573,
   961987163, 1508970993, 2453635748, 2870763221,
   3624381080, 310598401, 607225278, 1426881987,
   1925078388, 2162078206, 2614888103, 3248222580,
   3835390401, 4022224774, 264347078, 604807628,
   770255983, 1249150122, 1555081692, 1996064986,
   2554220882, 2821834349, 2952996808, 3210313671,
   3336571891, 3584528711, 113926993, 338241895,
   666307205, 773529912, 1294757372, 1396182291,
   1695183700, 1986661051, 2177026350, 2456956037,
   2730485921, 2820302411, 3259730800, 3345764771,
   3516065817, 3600352804, 4094571909, 275423344,
   430227734, 506948616, 659060556, 883997877,
   958139571, 1322822218, 1537002063, 1747873779,
   1955562222, 2024104815, 2227730452, 2361852424,
   2428436474, 2756734187, 3204031479, 3329325298]

/-- Big-endian byte expansion of `n` into `k` bytes. -/
def bytesBE (k n : Nat) : List Nat :=
  (List.range k).map (fun i => (n >>> ((k - 1 - i) * 8)) &&& 255)

/-- SHA-256 padding: 0x80, zeros to 56 mod 64, 8-byte big-endian bit
length. -/
def padMessage (msg : List Nat) : List Nat :=
  let padZeros := (119 - msg.length % 64) % 64
  msg ++ [128] ++ List.replicate padZeros 0 ++ bytesBE 8 (msg.length * 8)

/-- Group bytes into big-endian 32-bit words. -/
def toWords : List Nat → List Nat
  | b0 :: b1 :: b2 :: b3 :: rest => (((b0 * 256 + b1) * 256 + b2) * 256 + b3) :: toWords rest
  | _ => []

/-- Split a word list into 16-word blocks (a padded message is always a
multiple of 16 words). -/
def toBlocks : List Nat → List (List Nat)
  | w0 :: w1 :: w2 :: w3 :: w4 :: w5 :: w6 :: w7 ::
    w8 :: w9 :: w10 :: w11 :: w12 :: w13 :: w14 :: w15 :: rest =>
      [w0, w1, w2, w3, w4, w5, w6, w7, w8, w9, w10, w11, w12, w13, w14, w15] :: toBlocks rest
  | [] => []
  | leftover => [leftover]

/-- Extend the 16-word schedule by the given number of words; the list is
kept newest first. -/
def extendW : Nat → List Nat → List Nat
  | 0, revW => revW
  | n + 1, revW =>
      let next := w32 (smallSigma1 (revW.getD 1 0) + revW.getD 6 0 +
        smallSigma0 (revW.getD 14 0) + revW.getD 15 0)
      extendW n (next :: revW)

/-- The 64-word message schedule of a block. -/
def scheduleOf (block : List Nat) : List Nat :=
  (extendW 48 block.reverse).reverse

/-- The eight 32-bit working variables. -/
structure SHAState where
  a : Nat
  b : Nat
  c : Nat
  d : Nat
  e : Nat
  f : Nat
  g : Nat
  h : Nat

/-- One SHA-256 round. -/
def shaStep (st : SHAState) (k w : Nat) : SHAState :=
  let t1 := w32 (st.h + bigSigma1 st.e + chFn st.e st.f st.g + k + w)
  let t2 := w32 (bigSigma0 st.a + majFn st.a st.b st.c)
  ⟨w32 (t1 + t2), st.a, st.b, st.c, w32 (st.d + t1), st.e, st.f, st.g⟩

/-- SHA-256 initial hash value (FIPS 180-4, in decimal). -/
def sha256Init : SHAState :=
  ⟨1779033703, 3144134277, 1013904242, 2773480762,
   1359893119, 2600822924, 528734635, 1541459225⟩

/-- SHA-256 block compression. -/
def compressBlock (st : SHAState) (block : List Nat) : SHAState :=
  let ws := scheduleOf block
  let fin := (shaK.zip ws).foldl (fun s kw => shaStep s kw.1 kw.2) st
  ⟨w32 (st.a + fin.a), w32 (st.b + fin.b), w32 (st.c + fin.c), w32 (st.d + fin.d),
   w32 (st.e + fin.e), w32 (st.f + fin.f), w32 (st.g + fin.g), w32 (st.h + fin.h)⟩

/-- SHA-256 digest of a byte list. -/
def sha256Bytes (msg : List Nat) : List Nat :=
  let st := (toBlocks (toWords (padMessage msg))).foldl compressBlock sha256Init
  ([st.a, st.b, st.c, st.d, st.e, st.f, st.g, st.h].map (bytesBE 4)).flatten

/-- Lower-case hex digit. -/
def hexDigit (n : Nat) : Char := "0123456789abcdef".data.getD n '0'

/-- Two hex digits of one byte. -/
def byteToHex (b : Nat) : List Char := [hexDigit (b / 16), hexDigit (b % 16)]

/-- Bytes of a string; all strings hashed by the ledger are ASCII, where
Unicode code points and UTF-8 bytes coincide. -/
def strBytes (s : String) : List Nat := s.data.map (fun c => c.toNat)

/-- `createHash('sha256').update(s).digest('hex')`. -/
def sha256Hex (s : String) : String :=
  String.mk ((sha256Bytes (strBytes s)).foldr (fun b acc => byteToHex b ++ acc) [])

set_option maxRecDepth 10000 in
/-- Sanity: FIPS 180-4 test vector for the empty message. -/
theorem sha256Hex_empty :
    sha256Hex "" = "e3b0c44298fc1c149afbf4c8996fb92427ae41e4649b934ca495991b7852b855" := by decide

set_option maxRecDepth 10000 in
/-- Sanity: FIPS 180-4 test vector for `"abc"`. -/
theorem sha256Hex_abc :
    sha256Hex "abc" = "ba7816bf8f01cfea414140de5dae2223b00361a396177a9cb410ff61f20015ad" := by decide

/-! ### The hash-chained audit ledger (lineage service) -/

/-- `JSON.stringify` of a flat string-valued object, in property insertion
order (the demo's audit metadata holds string values).  Curly braces are
written as their escapes. -/
def jsonStringifyMeta (kvs : List (String × String)) : String :=
  "\x7b" ++ String.intercalate ","
    (kvs.map (fun kv => "\"" ++ kv.1 ++ "\":\"" ++ kv.2 ++ "\"")) ++ "\x7d"

/-- The fields from which `calculateHash` computes a digest.  `ts` is the
ISO-8601 rendering `event.ts.toISOString()`. -/
structure AuditFields where
  event_id : String
  ts : String
  actor_user_id : String
  action : String
  object_id : Option String
  object_type : String
  policy_decision : String
  reason : Option String
  prev_hash : Option String
  metadata : List (String × String)
  deriving DecidableEq

/-- The `hashInput` string of `calculateHash`: the ten fields joined with
`'|'`, null object_id/reason/prev_hash as empty strings, metadata via
`JSON.stringify`. -/
def hashInput (e : AuditFields) : String :=
  String.intercalate "|"
    [e.event_id, e.ts, e.actor_user_id, e.action, e.object_id.getD "",
     e.object_type, e.policy_decision, e.reason.getD "", e.prev_hash.getD "",
     jsonStringifyMeta e.metadata]

/-- `calculateHash` of the lineage service. -/
def calculateHash (e : AuditFields) : String := sha256Hex (hashInput e)

/-- Byte-wise lexicographic comparison of character lists. -/
def charListLe : List Char → List Char → Bool
  | [], _ => true
  | _ :: _, [] => false
  | c :: cs, d :: ds =>
      if c.toNat < d.toNat then true
      else if d.toNat < c.toNat then false
      else charListLe cs ds

/-- Lexicographic string comparison (ASCII keys). -/
def strLe (a b : String) : Bool := charListLe a.data b.data

/-- Insert into a key-sorted association list. -/
def insertByKey (kv : String × String) : List (String × String) → List (String × String)
  | [] => [kv]
  | x :: rest => if strLe kv.1 x.1 then kv :: x :: rest else x :: insertByKey kv rest

/-- Sort an association list by key. -/
def sortByKey : List (String × String) → List (String × String)
  | [] => []
  | kv :: rest => insertByKey kv (sortByKey rest)

/-- Modelled from the spec: the canonical hash input demanded by the
claim, identical to `hashInput` except that metadata canonicalization
sorts the keys (UTF-8, no insignificant whitespace). -/
def specCanonicalHashInput (e : AuditFields) : String :=
  String.intercalate "|"
    [e.event_id, e.ts, e.actor_user_id, e.action, e.object_id.getD "",
     e.object_type, e.policy_decision, e.reason.getD "", e.prev_hash.getD "",
     jsonStringifyMeta (sortByKey e.metadata)]

/-- One row of the `audit_events` table. -/
structure AuditRecord where
  event_id : String
  ts : String
  actor_user_id : String
  action : String
  object_id : Option String
  object_type : String
  policy_decision : String
  reason : Option String
  hash : String
  prev_hash : Option String
  metadata : List (String × String)
  deriving DecidableEq

/-- The stored fields of a record, as re-assembled by the verifier. -/
def AuditRecord.toFields (r : AuditRecord) : AuditFields :=
  { event_id := r.event_id, ts := r.ts, actor_user_id := r.actor_user_id,
    action := r.action, object_id := r.object_id, object_type := r.object_type,
    policy_decision := r.policy_decision, reason := r.reason,
    prev_hash := r.prev_hash, metadata := r.metadata }

/-- `SELECT hash FROM audit_events WHERE actor_user_id = $1 ORDER BY ts
DESC LIMIT 1` over a ledger kept in insertion (ts ascending) order:
the hash of the most recent record of the actor, if any. -/
def lastHashFor (ledger : List AuditRecord) (actor : String) : Option String :=
  ((ledger.filter (fun r => r.actor_user_id = actor)).getLast?).map (fun r => r.hash)

/-- POST /lineage/event: read the actor's previous hash, compute the
chained hash over the supplied fields, and insert the record. -/
def emitEvent (ledger : List AuditRecord) (event_id ts actor action : String)
    (object_id : Option String) (object_type policy_decision : String)
    (reason : Option String) (metadata : List (String × String)) :
    List AuditRecord × AuditRecord :=
  let prevHash := lastHashFor ledger actor
  let fields : AuditFields :=
    { event_id := event_id, ts := ts, actor_user_id := actor, action := action,
      object_id := object_id, object_type := object_type,
      policy_decision := policy_decision, reason := reason,
      prev_hash := prevHash, metadata := metadata }
  let record : AuditRecord :=
    { event_id := event_id, ts := ts, actor_user_id := actor, action := action,
      object_id := object_id, object_type := object_type,
      policy_decision := policy_decision, reason := reason,
      hash := calculateHash fields, prev_hash := prevHash, metadata := metadata }
  (ledger ++ [record], record)

/-- An entry of `failed_events` in the verification report. -/
structure FailedHashEntry where
  event_id : String
  timestamp : String
  expected_hash : String
  calculated_hash : String
  deriving DecidableEq

/-- An entry of `broken_links` in the verification report. -/
structure BrokenLinkEntry where
  event_id : String
  timestamp : String
  expected_prev_hash : Option String
  actual_prev_hash : String
  deriving DecidableEq

/-- The report of `verifyDetailedChainIntegrity`. -/
structure VerifyResult where
  valid : Bool
  total_events : Nat
  verified_events : Nat
  failed_events : List FailedHashEntry
  broken_links : List BrokenLinkEntry
  deriving DecidableEq

/-- The failed-hash entry pushed for a record whose recomputed hash
differs. -/
def mkFailedEntry (e : AuditRecord) : FailedHashEntry :=
  { event_id := e.event_id, timestamp := e.ts,
    expected_hash := e.hash, calculated_hash := calculateHash e.toFields }

/-- The broken-link entry pushed when `prev_hash` does not match the
previous record's hash. -/
def mkBrokenEntry (e prev : AuditRecord) : BrokenLinkEntry :=
  { event_id := e.event_id, timestamp := e.ts,
    expected_prev_hash := e.prev_hash, actual_prev_hash := prev.hash }

/-- The loop of `verifyDetailedChainIntegrity`: recompute each record's
hash and compare each record's `prev_hash` with its predecessor's hash;
returns (verified count, failed entries, broken links). -/
def verifyGo (prev : Option AuditRecord) :
    List AuditRecord → Nat × List FailedHashEntry × List BrokenLinkEntry
  | [] => (0, [], [])
  | e :: rest =>
      let hashOk : Bool := decide (calculateHash e.toFields = e.hash)
      let linkBroken : Bool :=
        match prev with
        | none => false
        | some p => decide (e.prev_hash ≠ some p.hash)
      let r := verifyGo (some e) rest
      (if hashOk then r.1 + 1 else r.1,
       if hashOk then r.2.1 else mkFailedEntry e :: r.2.1,
       if linkBroken then mkBrokenEntry e (prev.getD e) :: r.2.2 else r.2.2)

/-- `verifyDetailedChainIntegrity` over records in chronological (ts
ascending) order, as selected by POST /lineage/verify. -/
def verifyDetailedChainIntegrity (events : List AuditRecord) : VerifyResult :=
  let r := verifyGo none events
  { valid := r.2.1.isEmpty && r.2.2.isEmpty
    total_events := events.length
    verified_events := r.1
    failed_events := r.2.1
    broken_links := r.2.2 }

/-! ### C3: audit emission hash chaining -/

/-- Metadata whose insertion order differs from its key order. -/
def exMeta : List (String × String) := [("b", "2"), ("a", "1")]

/-- A concrete emission onto the empty ledger with that metadata. -/
def exEmit : List AuditRecord × AuditRecord :=
  emitEvent [] "e1" "2026-01-01T00:00:00.000Z" "alice@dash" "QUERY_ISSUED"
    none "query" "ALLOW" none exMeta

set_option maxRecDepth 40000 in
/-- C3 counterexample.  The emitted record's hash is the SHA-256 of the
pipe-joined fields with the metadata serialized in insertion order; it is
not the SHA-256 of the claimed canonical concatenation with sorted
metadata keys. -/
theorem audit_hash_not_spec_canonical :
    exEmit.2.hash = sha256Hex (hashInput exEmit.2.toFields) ∧
    exEmit.2.hash ≠ sha256Hex (specCanonicalHashInput exEmit.2.toFields) := by
  constructor
  · rfl
  · decide

/-- C3 amended.  `Emit` hashes the pipe-joined concatenation of
(event_id, ts, actor, action, object_id, object_type, decision, reason,
prev_hash, JSON.stringify(metadata) in insertion order) with SHA-256, and
chains `prev_hash` to the hash of the actor's most recent prior record,
or null when the actor has none. -/
theorem emit_hash_chain (ledger : List AuditRecord) (event_id ts actor action : String)
    (object_id : Option String) (object_type policy_decision : String)
    (reason : Option String) (metadata : List (String × String)) :
    (emitEvent ledger event_id ts actor action object_id object_type
        policy_decision reason metadata).2.hash =
      sha256Hex (hashInput (emitEvent ledger event_id ts actor action object_id object_type
        policy_decision reason metadata).2.toFields) ∧
    (emitEvent ledger event_id ts actor action object_id object_type
        policy_decision reason metadata).2.prev_hash = lastHashFor ledger actor ∧
    (emitEvent ledger event_id ts actor action object_id object_type
        policy_decision reason metadata).1 =
      ledger ++ [(emitEvent ledger event_id ts actor action object_id object_type
        policy_decision reason metadata).2] ∧
    (ledger.filter (fun r => r.actor_user_id = actor) = [] →
      (emitEvent ledger event_id ts actor action object_id object_type
        policy_decision reason metadata).2.prev_hash = none) ∧
    (∀ (rest : List AuditRecord) (rp : AuditRecord),
      ledger.filter (fun r => r.actor_user_id = actor) = rest ++ [rp] →
      (emitEvent ledger event_id ts actor action object_id object_type
        policy_decision reason metadata).2.prev_hash = some rp.hash) := by
  refine ⟨rfl, rfl, rfl, ?_, ?_⟩
  · intro h
    simp [emitEvent, lastHashFor, h]
  · intro rest rp h
    simp [emitEvent, lastHashFor, h]

/-- Witness for C3: emitting onto the empty ledger yields a null
`prev_hash`. -/
theorem emit_hash_chain_witness :
    exEmit.2.prev_hash = none :=
  (emit_hash_chain [] "e1" "2026-01-01T00:00:00.000Z" "alice@dash" "QUERY_ISSUED"
    none "query" "ALLOW" none exMeta).2.2.2.1 rfl

/-! ### C4: verification soundness and completeness -/

/-- The broken links among adjacent records, oldest first. -/
def adjBroken : List AuditRecord → List BrokenLinkEntry
  | e1 :: e2 :: rest =>
      (if e2.prev_hash ≠ some e1.hash then [mkBrokenEntry e2 e1] else [])
        ++ adjBroken (e2 :: rest)
  | _ => []

theorem verifyGo_failed (prev : Option AuditRecord) (l : List AuditRecord) :
    (verifyGo prev l).2.1 =
      (l.filter (fun e => !(decide (calculateHash e.toFields = e.hash)))).map mkFailedEntry := by
  induction l generalizing prev with
  | nil => rfl
  | cons e rest ih =>
      simp only [verifyGo, List.filter_cons, ih]
      by_cases h : calculateHash e.toFields = e.hash
      · simp [h]
      · simp [h]

theorem verifyGo_broken (l : List AuditRecord) :
    (∀ p, (verifyGo (some p) l).2.2 = adjBroken (p :: l)) ∧
    (verifyGo none l).2.2 = adjBroken l := by
  induction l with
  | nil => exact ⟨fun p => rfl, rfl⟩
  | cons e rest ih =>
      constructor
      · intro p
        show (if (decide (e.prev_hash ≠ some p.hash) : Bool) then
            mkBrokenEntry e p :: (verifyGo (some e) rest).2.2
          else (verifyGo (some e) rest).2.2) = adjBroken (p :: e :: rest)
        rw [ih.1 e]
        have hadj : adjBroken (p :: e :: rest) =
            (if e.prev_hash ≠ some p.hash then [mkBrokenEntry e p] else [])
              ++ adjBroken (e :: rest) := rfl
        rw [hadj]
        by_cases h : e.prev_hash = some p.hash
        · simp [h]
        · simp [h]
      · show (verifyGo (some e) rest).2.2 = adjBroken (e :: rest)
        exact ih.1 e

theorem adjBroken_eq_nil_iff (l : List AuditRecord) :
    adjBroken l = [] ↔ ∀ pe ∈ l.zip l.tail, pe.2.prev_hash = some pe.1.hash := by
  induction l with
  | nil => simp [adjBroken]
  | cons e1 rest ih =>
      cases rest with
      | nil => simp [adjBroken]
      | cons e2 rest' =>
          unfold adjBroken
          rw [List.append_eq_nil]
          constructor
          · rintro ⟨h1, h2⟩
            intro pe hpe
            rcases List.mem_cons.mp hpe with hpe | hpe
            · subst hpe
              by_contra hne
              simp [hne] at h1
            · exact (ih.mp h2) pe hpe
          · intro h
            constructor
            · have h12 : e2.prev_hash = some e1.hash := h (e1, e2) (by simp)
              rw [if_neg (fun hc => hc h12)]
            · exact ih.mpr (fun pe hpe => h pe (List.mem_cons_of_mem _ hpe))

theorem mem_adjBroken_of_mismatch {l : List AuditRecord} {pe : AuditRecord × AuditRecord}
    (hpe : pe ∈ l.zip l.tail) (hne : pe.2.prev_hash ≠ some pe.1.hash) :
    mkBrokenEntry pe.2 pe.1 ∈ adjBroken l := by
  induction l with
  | nil => simp at hpe
  | cons e1 rest ih =>
      cases rest with
      | nil => simp at hpe
      | cons e2 rest' =>
          unfold adjBroken
          rcases List.mem_cons.mp hpe with h | h
          · subst h
            simp [hne]
          · exact List.mem_append_right _ (ih h)

/-- C4.  `verifyDetailedChainIntegrity` returns `valid = true` iff every
record's recomputed hash equals the stored hash and every non-initial
record's `prev_hash` equals the immediately preceding record's hash; every
failing record appears among the failed hashes and every mismatched link
among the broken links. -/
theorem verify_valid_iff (events : List AuditRecord) :
    ((verifyDetailedChainIntegrity events).valid = true ↔
       ((∀ e ∈ events, calculateHash e.toFields = e.hash) ∧
        (∀ pe ∈ events.zip events.tail, pe.2.prev_hash = some pe.1.hash))) ∧
    (∀ e ∈ events, calculateHash e.toFields ≠ e.hash →
       mkFailedEntry e ∈ (verifyDetailedChainIntegrity events).failed_events) ∧
    (∀ pe ∈ events.zip events.tail, pe.2.prev_hash ≠ some pe.1.hash →
       mkBrokenEntry pe.2 pe.1 ∈ (verifyDetailedChainIntegrity events).broken_links) := by
  have hfail : (verifyDetailedChainIntegrity events).failed_events =
      (events.filter (fun e => !(decide (calculateHash e.toFields = e.hash)))).map mkFailedEntry :=
    verifyGo_failed none events
  have hbrok : (verifyDetailedChainIntegrity events).broken_links = adjBroken events :=
    (verifyGo_broken events).2
  refine ⟨?_, ?_, ?_⟩
  · show ((verifyGo none events).2.1.isEmpty && (verifyGo none events).2.2.isEmpty) = true ↔ _
    rw [Bool.and_eq_true, List.isEmpty_iff, List.isEmpty_iff]
    have h1 : (verifyGo none events).2.1 = [] ↔
        ∀ e ∈ events, calculateHash e.toFields = e.hash := by
      rw [verifyGo_failed none events, List.map_eq_nil_iff, List.filter_eq_nil_iff]
      constructor
      · intro h e he
        have := h e he
        simpa using this
      · intro h e he
        simp [h e he]
    have h2 : (verifyGo none events).2.2 = [] ↔
        ∀ pe ∈ events.zip events.tail, pe.2.prev_hash = some pe.1.hash := by
      rw [(verifyGo_broken events).2]
      exact adjBroken_eq_nil_iff events
    rw [h1, h2]
  · intro e he hne
    rw [hfail]
    exact List.mem_map.mpr ⟨e, List.mem_filter.mpr ⟨he, by simp [hne]⟩, rfl⟩
  · intro pe hpe hne
    rw [hbrok]
    exact mem_adjBroken_of_mismatch hpe hne

/-- The first demo emission's record with its metadata tampered after the
fact. -/
def exTampered : AuditRecord :=
  { exEmit.2 with metadata := [("b", "2"), ("a", "tampered")] }

set_option maxRecDepth 40000 in
/-- Witness for C4: the tampered record fails hash recomputation and is
reported among the failed events. -/
theorem verify_valid_iff_witness :
    mkFailedEntry exTampered ∈ (verifyDetailedChainIntegrity [exTampered]).failed_events :=
  (verify_valid_iff [exTampered]).2.1 exTampered (by decide) (by decide)

/-! ### C9: step-up session semantics

POST /auth/step-up does `sessionStore.set(key, true)` and schedules an
unconditional `setTimeout` deletion of the key `ttl` later; a later Assert
sets the key again but never cancels an earlier timer.  The replay below
gives the map state at query time `now` for the timeline of a subject's
Assert instants: the flag reads true iff the most recent event at or
before `now` is a set (a deletion firing at the same instant wins). -/

end GovRag
